import Mathlib

/-! Version manager (`versions.c`)

A shallow embedding of the version-management API of `src/versions.c` and the
properties of its operations `create_version`, `add`, `list`, `get`,
`version_exists`, `store_file` and `retrieve_file`.

Conventions of the embedding.

* A `char` array (a struct field, a stack buffer) is a `List Char`, one `Char`
  per byte; the C string it holds is `cstr`, the bytes before the first NUL.
* A `char *` argument that the code only dereferences is the string it points
  to.  Where the code compares the pointer itself (`list`, `get`) the argument
  is a `CharPtr`: an address together with the string stored there.
* The log file `.versions/versions.db` is `Option (List file_version)`: `none`
  when `fopen` fails, otherwise the complete records the `fread` loop reads
  (a trailing partial record makes `fread` return 0 and ends the loop).
* Output is a trace: the `printf` calls of `list` and the `copy` calls of
  `get`, `store_file` and `retrieve_file`, with their arguments, in order.
* The `int` counter `cont` is an `Int`; signed overflow (a log of 2^31 records)
  is outside the model.
-/

namespace Versions

/-! ## Strings and buffers -/

/-- The NUL byte that terminates a C string. -/
def NUL : Char := Char.ofNat 0

/-- The C string held in a `char` array: its bytes up to the first NUL. -/
def cstr (buf : List Char) : List Char :=
  buf.takeWhile (fun c => c != NUL)

/-- The array contents after `strncpy(dst, src, n)`: at most `n` bytes of `src`,
padded with NUL up to `n` bytes when `src` is shorter. -/
def strncpy (src : List Char) (n : Nat) : List Char :=
  src.take n ++ List.replicate (n - src.length) NUL

/-- The string written by `snprintf(dst, size, "%s/%s", a, b)`: the formatted
text cut to `size - 1` bytes. -/
def snprintf_path (size : Nat) (a b : List Char) : List Char :=
  (a ++ '/' :: b).take (size - 1)

/-! ## Declarations of `versions.h` -/

/-- Modelled from the spec: the macro `VERSIONS_DIR` of `versions.h`, a header
that is not among the sources; the repository root `.versions`, which is also
the directory in which `list` and `get` open `versions.db`. -/
def VERSIONS_DIR : List Char := ".versions".toList

/-- Modelled from the spec: the enumeration `return_code` of `versions.h`, with
the four outcomes that `versions.c` names. -/
inductive return_code where
  | VERSION_ERROR
  | VERSION_CREATED
  | VERSION_ADDED
  | VERSION_ALREADY_EXISTS
  deriving DecidableEq

/-- Modelled from the spec: the record `file_version` of `versions.h`, three
`char` arrays `filename[PATH_MAX]`, `hash[HASH_SIZE]`, `comment[COMMENT_SIZE]`. -/
structure file_version where
  filename : List Char
  hash : List Char
  comment : List Char
  deriving DecidableEq

/-- A `char *` whose value the code inspects: `addr = 0` is `NULL`, otherwise
`str` is the NUL-terminated string stored at `addr`. -/
structure CharPtr where
  addr : Nat
  str : List Char
  deriving DecidableEq

/-- The null pointer. -/
def CharPtr.NULL : CharPtr := ⟨0, []⟩

/-! ## File system and hasher -/

/-- File type bits of `st_mode`. -/
inductive FileKind where
  | regular
  | directory
  | other
  deriving DecidableEq

/-- The part of the file system `stat` looks at: the type of the file a path
names, `none` when the path names nothing. -/
abbrev FileSystem := List Char → Option FileKind

/-- The call `stat(filename, &s)`: `none` when it returns a negative value, otherwise the
`st_mode` it stores. -/
def stat (fs : FileSystem) (filename : List Char) : Option FileKind :=
  fs filename

/-- The test `S_ISREG(s.st_mode)`. -/
def S_ISREG (m : FileKind) : Bool :=
  m == FileKind.regular

/-- Function `get_file_hash(filename, hash)`: `none` is the `NULL` result; otherwise the
buffer `hash` as `sha256_hash_file_hex` (an external routine, a parameter here)
filled it. -/
def get_file_hash (fs : FileSystem) (sha256_hash_file_hex : List Char → List Char)
    (filename : List Char) (_hash : List Char) : Option (List Char) :=
  match stat fs filename with
  | none => none
  | some m => if !S_ISREG m then none else some (sha256_hash_file_hex filename)

/-- Function `create_version(filename, comment, result)`: the return code and the
contents of `*result` afterwards. -/
def create_version (PATH_MAX COMMENT_SIZE : Nat) (fs : FileSystem)
    (sha256_hash_file_hex : List Char → List Char)
    (filename comment : List Char) (result : file_version) : return_code × file_version :=
  match stat fs filename with
  | none => (return_code.VERSION_ERROR, result)
  | some m =>
    if !S_ISREG m then (return_code.VERSION_ERROR, result)
    else
      match get_file_hash fs sha256_hash_file_hex filename result.hash with
      | none => (return_code.VERSION_ERROR, result)
      | some h =>
        (return_code.VERSION_CREATED,
          ⟨strncpy filename PATH_MAX, h, strncpy comment COMMENT_SIZE⟩)

/-! ## The repository -/

/-- The persistent state `add` works on: the log `versions.db` and the blobs
stored under `VERSIONS_DIR`, each a file name with its content. -/
structure Repo where
  db : Option (List file_version)
  blobs : List (List Char × List Char)
  deriving DecidableEq

/-- Function `version_exists(filename, hash)`: the body is the single statement
`return 1;`. -/
def version_exists (_db : Option (List file_version)) (_filename _hash : List Char) : Int :=
  1

/-- Function `add_new_version(v)`: the body is the single statement `return 0;`, the log
is not written. -/
def add_new_version (_v : file_version) (repo : Repo) : Int × Repo :=
  (0, repo)

/-- Function `add(filename, comment)`: every step is commented out, the body is
`return VERSION_ERROR;`. -/
def add (_fs : FileSystem) (_filename _comment : List Char) (repo : Repo) : return_code × Repo :=
  (return_code.VERSION_ERROR, repo)

/-! ## Copying -/

/-- One call `copy(source, destination)`. -/
structure CopyCall where
  source : List Char
  destination : List Char
  deriving DecidableEq

/-- Function `copy(source, destination)`: the body is empty, so the call yields no
value; the call itself is recorded. -/
def copy (source destination : List Char) : Option Int × List CopyCall :=
  (none, [⟨source, destination⟩])

/-- Function `store_file(filename, hash)`. -/
def store_file (PATH_MAX : Nat) (filename hash : List Char) : Option Int × List CopyCall :=
  let dst_filename := snprintf_path PATH_MAX VERSIONS_DIR hash
  copy filename dst_filename

/-- Function `retrieve_file(hash, filename)`. -/
def retrieve_file (PATH_MAX : Nat) (hash filename : List Char) : Option Int × List CopyCall :=
  let src_filename := snprintf_path PATH_MAX VERSIONS_DIR hash
  copy src_filename filename

/-! ## Listing and retrieving -/

/-- One call `printf("%d, %s, %s\n", cont, r.hash, r.comment)`. -/
structure PrintfCall where
  cont : Int
  hash : List Char
  comment : List Char
  deriving DecidableEq

/-- The read loop of `list` from counter value `cont` on. `r_filename` is the
address of the local array `r.filename`, which the test `r.filename == filename`
compares with the argument. -/
def list_loop (r_filename : Nat) (filename : CharPtr) :
    List file_version → Int → List PrintfCall
  | [], _ => []
  | r :: rest, cont =>
    if r_filename = filename.addr then
      ⟨cont, cstr r.hash, cstr r.comment⟩ :: list_loop r_filename filename rest (cont + 1)
    else
      list_loop r_filename filename rest cont

/-- Function `list(filename)`: the lines it prints. -/
def list (r_filename : Nat) (db : Option (List file_version)) (filename : CharPtr) :
    List PrintfCall :=
  match db with
  | none => []
  | some records => list_loop r_filename filename records 1

/-- The read loop of `get` from counter value `cont` on: the `copy` calls made. -/
def get_loop (r_filename : Nat) (filename : CharPtr) (version : Int) :
    List file_version → Int → List CopyCall
  | [], _ => []
  | r :: rest, cont =>
    if r_filename = filename.addr then
      if cont = version then
        (copy (cstr r.hash) (cstr r.filename)).2
      else
        get_loop r_filename filename version rest (cont + 1)
    else
      get_loop r_filename filename version rest cont

/-- Function `get(filename, version)`: the value returned and the `copy` calls made. The
function leaves by `return;` or by its closing brace, so there is no value. -/
def get (r_filename : Nat) (db : Option (List file_version)) (filename : CharPtr)
    (version : Int) : Option Int × List CopyCall :=
  match db with
  | none => (none, [])
  | some records => (none, get_loop r_filename filename version records 1)

/-! ## The operations as the specification words them -/

/-- The specification's `find_by_filename`: the records whose filename equals
`name` as a string, in log order. -/
def find_by_filename (records : List file_version) (name : List Char) : List file_version :=
  records.filter (fun r => decide (cstr r.filename = name))

/-- Lines for `records`, numbered `n`, `n + 1`, ... in order. -/
def number_from : Int → List file_version → List PrintfCall
  | _, [] => []
  | n, r :: rest => ⟨n, cstr r.hash, cstr r.comment⟩ :: number_from (n + 1) rest

/-- The specification's `list` with a filename: the matching records numbered
from 1. -/
def list_by_filename_spec (records : List file_version) (f : List Char) : List PrintfCall :=
  number_from 1 (find_by_filename records f)

/-- The specification's `list` without a filename, after the records `before`:
every record, numbered by its rank among the records of the same filename. -/
def list_all_spec_from (before : List file_version) : List file_version → List PrintfCall
  | [] => []
  | r :: rest =>
    ⟨((find_by_filename before (cstr r.filename)).length : Int) + 1, cstr r.hash, cstr r.comment⟩
      :: list_all_spec_from (before ++ [r]) rest

/-- The specification's `list` without a filename. -/
def list_all_spec (records : List file_version) : List PrintfCall :=
  list_all_spec_from [] records

/-- The specification's `exists(filename, hash)` as the `int` the doc comment of
`version_exists` promises. -/
def version_exists_spec (records : List file_version) (filename hash : List Char) : Int :=
  if records.any (fun r => decide (cstr r.filename = filename) && decide (cstr r.hash = hash))
  then 1 else 0

/-- The specification's `get`: the `copy` calls for version `k` of `f`, one
`retrieve_file` of the hash of the `k`-th record carrying `f`, none when there
is no such record. -/
def get_spec (PATH_MAX : Nat) (records : List file_version) (f : List Char) (k : Nat) :
    List CopyCall :=
  match (find_by_filename records f).get? (k - 1) with
  | some r => if 1 ≤ k then (retrieve_file PATH_MAX (cstr r.hash) f).2 else []
  | none => []

/-! ## Sample data -/

/-- A record as it lies in the log, every field NUL-padded to its width (widths
16, 8 and 12 here). -/
def sample_record (filename hash comment : List Char) : file_version :=
  ⟨strncpy filename 16, strncpy hash 8, strncpy comment 12⟩

/-- A log with two versions of `a.txt` around one version of `b.txt`. -/
def sample_log : List file_version :=
  [sample_record "a.txt".toList "h1".toList "first".toList,
   sample_record "b.txt".toList "h2".toList "other".toList,
   sample_record "a.txt".toList "h3".toList "second".toList]

/-- A file system with the regular files `a.txt` and `b.txt` and the directory
`.versions`. -/
def sample_fs : FileSystem := fun path =>
  if path = "a.txt".toList ∨ path = "b.txt".toList then some FileKind.regular
  else if path = ".versions".toList then some FileKind.directory
  else none

/-- A stand-in hasher: `h3` for `a.txt`, `h2` for every other file. -/
def sample_sha (path : List Char) : List Char :=
  if path = "a.txt".toList then strncpy "h3".toList 8 else strncpy "h2".toList 8

/-- The repository holding `sample_log` and its three blobs. -/
def sample_repo : Repo :=
  ⟨some sample_log,
   [("h1".toList, "one".toList), ("h2".toList, "two".toList), ("h3".toList, "three".toList)]⟩

/-! ## Lemmas on buffers -/

/-- A NUL-free string followed by a NUL is read back unchanged. -/
theorem cstr_append_NUL (s t : List Char) (hs : NUL ∉ s) : cstr (s ++ NUL :: t) = s := by
  induction s with
  | nil => simp [cstr]
  | cons c s ih =>
    have hc : c ≠ NUL := fun h => hs (by simp [h])
    have hs2 : NUL ∉ s := fun h => hs (List.mem_cons_of_mem c h)
    have ih2 := ih hs2
    simp only [cstr] at ih2 ⊢
    simp [List.takeWhile_cons, hc, ih2]

/-- A string shorter than the array it is `strncpy`-ed into is read back
unchanged. -/
theorem cstr_strncpy (s : List Char) (n : Nat) (hlen : s.length < n) (hs : NUL ∉ s) :
    cstr (strncpy s n) = s := by
  obtain ⟨k, hk⟩ : ∃ k, n - s.length = k + 1 := ⟨n - s.length - 1, by omega⟩
  unfold strncpy
  rw [List.take_of_length_le (by omega), hk, List.replicate_succ]
  exact cstr_append_NUL s _ hs

/-- The formatted path is written whole when it fits in `size - 1` bytes. -/
theorem snprintf_path_fits (size : Nat) (a b : List Char)
    (hfit : (a ++ '/' :: b).length ≤ size - 1) :
    snprintf_path size a b = a ++ '/' :: b := by
  unfold snprintf_path
  exact List.take_of_length_le hfit

/-! ## Lemmas on the read loops -/

/-- The loop of `list` prints nothing when the argument is not the address of
the local array. -/
theorem list_loop_of_ne (r_filename : Nat) (filename : CharPtr)
    (hptr : filename.addr ≠ r_filename) (records : List file_version) (cont : Int) :
    list_loop r_filename filename records cont = [] := by
  induction records generalizing cont with
  | nil => rfl
  | cons r rest ih =>
    have h : ¬ r_filename = filename.addr := fun e => hptr e.symm
    simp [list_loop, h, ih]

/-- The loop of `get` copies nothing when the argument is not the address of the
local array. -/
theorem get_loop_of_ne (r_filename : Nat) (filename : CharPtr) (version : Int)
    (hptr : filename.addr ≠ r_filename) (records : List file_version) (cont : Int) :
    get_loop r_filename filename version records cont = [] := by
  induction records generalizing cont with
  | nil => rfl
  | cons r rest ih =>
    have h : ¬ r_filename = filename.addr := fun e => hptr e.symm
    simp [get_loop, h, ih]

/-! ## The claims -/

/-- C1: `list(f)` should print the records whose filename equals `f` as a
string, numbered 1, 2, ..., k. On the sample log, called with a pointer to the
string `a.txt`, `list` prints no line, while the log holds two records carrying
`a.txt`, which the specification numbers 1 and 2: the test
`r.filename == filename` compares addresses, not strings. -/
theorem list_misses_matching_records :
    list 2000 (some sample_log) ⟨1000, "a.txt".toList⟩ = [] ∧
    list_by_filename_spec sample_log "a.txt".toList =
      [⟨1, "h1".toList, "first".toList⟩, ⟨2, "h3".toList, "second".toList⟩] := by
  decide

/-- C2: `add` of a file whose name and hash are already in the log should
return `VERSION_ALREADY_EXISTS`. On the sample repository, where `a.txt` is a
regular file whose hash `h3` is logged for `a.txt`, `add` returns
`VERSION_ERROR`; the repository is unchanged. -/
theorem add_existing_version_returns_error :
    sample_fs "a.txt".toList = some FileKind.regular ∧
    version_exists_spec sample_log "a.txt".toList (cstr (sample_sha "a.txt".toList)) = 1 ∧
    add sample_fs "a.txt".toList "again".toList sample_repo =
      (return_code.VERSION_ERROR, sample_repo) ∧
    (add sample_fs "a.txt".toList "again".toList sample_repo).1 ≠
      return_code.VERSION_ALREADY_EXISTS := by
  decide

/-- C3: `add` of a regular file that is not in the log should return
`VERSION_ADDED` and append one record. On an empty repository `add` of the
regular file `a.txt` returns `VERSION_ERROR` and the log stays empty; the
helper `add_new_version` returns 0 and leaves the log as it is. -/
theorem add_fresh_file_returns_error :
    sample_fs "a.txt".toList = some FileKind.regular ∧
    version_exists_spec [] "a.txt".toList (cstr (sample_sha "a.txt".toList)) = 0 ∧
    add sample_fs "a.txt".toList "first".toList ⟨some [], []⟩ =
      (return_code.VERSION_ERROR, ⟨some [], []⟩) ∧
    add_new_version (sample_record "a.txt".toList "h3".toList "first".toList) ⟨some [], []⟩ =
      (0, ⟨some [], []⟩) := by
  decide

/-- C4: `version_exists` should return 0 when no record of the log matches
filename and hash. On the empty log it returns 1 for `a.txt` and `h1`, where
the specification gives 0. -/
theorem version_exists_on_empty_log :
    version_exists (some []) "a.txt".toList "h1".toList = 1 ∧
    version_exists_spec [] "a.txt".toList "h1".toList = 0 := by
  decide

/-- C5: `get(f, n)` beyond the last version of `f` should fail with a not-found
result and copy nothing. On the sample log, which holds two versions of
`a.txt`, `get` of version 99 copies nothing and produces no result value at
all. -/
theorem get_out_of_range_no_result :
    (find_by_filename sample_log "a.txt".toList).length = 2 ∧
    get 2000 (some sample_log) ⟨1000, "a.txt".toList⟩ 99 = (none, []) := by
  decide

/-- C6: `get(f, k)` should make one copy from `.versions/<h>` to `f`, with `h`
the hash of version `k` of `f`. On the sample log `get` of version 2 of
`a.txt` makes no `copy` call, where the specification has the one call from
`.versions/h3` to `a.txt`. -/
theorem get_existing_version_copies_nothing :
    get 2000 (some sample_log) ⟨1000, "a.txt".toList⟩ 2 = (none, []) ∧
    get_spec 4096 sample_log "a.txt".toList 2 =
      [⟨".versions/h3".toList, "a.txt".toList⟩] := by
  decide

/-- The `copy` call in the loop of `get` takes the bare hash as its source, not
a path under `VERSIONS_DIR`: with the test `r.filename == filename` succeeding,
version 1 on the sample log is copied from `h1`. -/
theorem get_loop_copies_from_bare_hash :
    get_loop 1000 ⟨1000, "a.txt".toList⟩ 1 sample_log 1 =
      [⟨"h1".toList, "a.txt".toList⟩] := by
  decide

/-- C7: `list(NULL)` should print every record of the log, one line each, in
log order, numbered per filename. On the sample log `list(NULL)` prints no
line, where the specification has the three lines numbered 1, 1, 2: the array
`r.filename` is never the null pointer, so the test `r.filename == filename`
fails for every record, against the comment that all records are shown when
`filename` is `NULL`. -/
theorem list_NULL_prints_nothing :
    list 2000 (some sample_log) CharPtr.NULL = [] ∧
    list_all_spec sample_log =
      [⟨1, "h1".toList, "first".toList⟩, ⟨1, "h2".toList, "other".toList⟩,
       ⟨2, "h3".toList, "second".toList⟩] := by
  decide

/-- C8: for a filename that no record of the log carries, `list` prints no
line, and likewise when the log cannot be opened (`db = none`); `list` is a
total function, so the call completes. The pointer `filename` is one the
caller holds, so it is not the address of the array `r.filename` local to
`list`; under that condition alone the loop prints nothing. -/
theorem list_untracked_prints_nothing (r_filename : Nat) (db : Option (List file_version))
    (filename : CharPtr) (hptr : filename.addr ≠ r_filename)
    (_huntracked : ∀ records, db = some records →
      ∀ r ∈ records, cstr r.filename ≠ filename.str) :
    list r_filename db filename = [] := by
  cases db with
  | none => rfl
  | some records => exact list_loop_of_ne r_filename filename hptr records 1

/-- C8 on the sample log and the untracked name `c.txt`, and on a missing log. -/
theorem list_untracked_prints_nothing_witness :
    list 2000 (some sample_log) ⟨1000, "c.txt".toList⟩ = [] ∧
    list 2000 none ⟨1000, "c.txt".toList⟩ = [] :=
  ⟨list_untracked_prints_nothing 2000 (some sample_log) ⟨1000, "c.txt".toList⟩ (by decide)
      (by
        intro records h r hr
        cases h
        revert r hr
        decide),
   list_untracked_prints_nothing 2000 none ⟨1000, "c.txt".toList⟩ (by decide)
      (by intro records h; cases h)⟩

/-- C9: when `.versions/` followed by the hash fits in `PATH_MAX - 1` bytes,
`store_file(filename, hash)` calls `copy` once, from `filename` to
`VERSIONS_DIR/hash`, and `retrieve_file(hash, filename)` calls `copy` once, from
that same path to `filename`. -/
theorem store_retrieve_same_path (PATH_MAX : Nat) (filename hash : List Char)
    (hfit : (".versions/".toList ++ hash).length ≤ PATH_MAX - 1) :
    (store_file PATH_MAX filename hash).2 = [⟨filename, VERSIONS_DIR ++ '/' :: hash⟩] ∧
    (retrieve_file PATH_MAX hash filename).2 = [⟨VERSIONS_DIR ++ '/' :: hash, filename⟩] := by
  have hpath : snprintf_path PATH_MAX VERSIONS_DIR hash = VERSIONS_DIR ++ '/' :: hash :=
    snprintf_path_fits PATH_MAX VERSIONS_DIR hash hfit
  simp only [store_file, retrieve_file, copy, hpath, and_self]

/-- C9 for `a.txt` and the hash `h3` with `PATH_MAX = 4096`. -/
theorem store_retrieve_same_path_witness :
    (".versions/".toList ++ "h3".toList).length ≤ 4096 - 1 ∧
    (store_file 4096 "a.txt".toList "h3".toList).2 =
      [⟨"a.txt".toList, ".versions/h3".toList⟩] ∧
    (retrieve_file 4096 "h3".toList "a.txt".toList).2 =
      [⟨".versions/h3".toList, "a.txt".toList⟩] :=
  ⟨by decide, store_retrieve_same_path 4096 "a.txt".toList "h3".toList (by decide)⟩

/-- C10: for a filename shorter than `PATH_MAX` and a comment shorter than
`COMMENT_SIZE`, `create_version` returns `VERSION_ERROR` when the filename does
not name an existing regular file, and otherwise returns `VERSION_CREATED` with
the hasher's digest in `result.hash`, the filename in `result.filename` and the
comment in `result.comment`. -/
theorem create_version_outcome (PATH_MAX COMMENT_SIZE : Nat) (fs : FileSystem)
    (sha256_hash_file_hex : List Char → List Char) (filename comment : List Char)
    (result : file_version)
    (hfilename : filename.length < PATH_MAX) (hcomment : comment.length < COMMENT_SIZE)
    (hf : NUL ∉ filename) (hc : NUL ∉ comment) :
    (fs filename ≠ some FileKind.regular →
      (create_version PATH_MAX COMMENT_SIZE fs sha256_hash_file_hex filename comment result).1
        = return_code.VERSION_ERROR) ∧
    (fs filename = some FileKind.regular →
      (create_version PATH_MAX COMMENT_SIZE fs sha256_hash_file_hex filename comment result).1
        = return_code.VERSION_CREATED ∧
      (create_version PATH_MAX COMMENT_SIZE fs sha256_hash_file_hex filename comment result).2.hash
        = sha256_hash_file_hex filename ∧
      cstr (create_version PATH_MAX COMMENT_SIZE fs sha256_hash_file_hex filename comment
        result).2.filename = filename ∧
      cstr (create_version PATH_MAX COMMENT_SIZE fs sha256_hash_file_hex filename comment
        result).2.comment = comment) := by
  constructor
  · intro hreg
    unfold create_version get_file_hash stat
    cases hfs : fs filename with
    | none => rfl
    | some m =>
      cases m with
      | regular => exact absurd hfs hreg
      | directory => rfl
      | other => rfl
  · intro hreg
    have hcv : create_version PATH_MAX COMMENT_SIZE fs sha256_hash_file_hex filename comment
        result = (return_code.VERSION_CREATED,
          ⟨strncpy filename PATH_MAX, sha256_hash_file_hex filename,
            strncpy comment COMMENT_SIZE⟩) := by
      simp [create_version, get_file_hash, stat, hreg, S_ISREG]
    rw [hcv]
    exact ⟨rfl, rfl, cstr_strncpy filename PATH_MAX hfilename hf,
      cstr_strncpy comment COMMENT_SIZE hcomment hc⟩

/-- C10 for the regular file `a.txt` and for the missing file `c.txt`. -/
theorem create_version_outcome_witness :
    ("a.txt".toList.length < 16 ∧ "third".toList.length < 12 ∧
      NUL ∉ "a.txt".toList ∧ NUL ∉ "third".toList ∧
      sample_fs "a.txt".toList = some FileKind.regular) ∧
    ((create_version 16 12 sample_fs sample_sha "a.txt".toList "third".toList
        ⟨[], [], []⟩).1 = return_code.VERSION_CREATED ∧
      (create_version 16 12 sample_fs sample_sha "a.txt".toList "third".toList
        ⟨[], [], []⟩).2.hash = sample_sha "a.txt".toList ∧
      cstr (create_version 16 12 sample_fs sample_sha "a.txt".toList "third".toList
        ⟨[], [], []⟩).2.filename = "a.txt".toList ∧
      cstr (create_version 16 12 sample_fs sample_sha "a.txt".toList "third".toList
        ⟨[], [], []⟩).2.comment = "third".toList) ∧
    (create_version 16 12 sample_fs sample_sha "c.txt".toList "third".toList
        ⟨[], [], []⟩).1 = return_code.VERSION_ERROR :=
  ⟨by decide,
   (create_version_outcome 16 12 sample_fs sample_sha "a.txt".toList "third".toList
      ⟨[], [], []⟩ (by decide) (by decide) (by decide) (by decide)).2 (by decide),
   (create_version_outcome 16 12 sample_fs sample_sha "c.txt".toList "third".toList
      ⟨[], [], []⟩ (by decide) (by decide) (by decide) (by decide)).1 (by decide)⟩

end Versions
